import Mathlib

/-!
# TimeCrypt native crypto layer: PRF tree derivation and AES-GCM block sealing

Shallow embedding of the two JNI translation units

* `timecrypt-crypto/native/aes-ni/aes-fast-jni.c`     (Java class `PRFAesNi`)
* `timecrypt-crypto/native/openssl/aes-openssl-jni.c` (Java class `PRFAesOpenSSL`)

Modelling conventions.

* A byte is a `Nat` (values `0..255`), a Java `byte[]` is a `List Nat`, a C array
  `byte buf[n]` is a `Buf n` (a list of exactly `n` bytes), a `jint` is an `Int`.
* The JNI environment is explicit state (`JNIEnv`): the exceptions raised so far, in order,
  and a ghost log of the cipher invocations made by the call.  `ThrowNew` only records an
  exception; control continues with the next C statement, as in JNI.
* The automatic arrays of a native function start with indeterminate contents; these are
  the fields of a `Frame` passed to every function.
* The AES block cipher (`aes.h` intrinsics, OpenSSL `AES_*`) and the OpenSSL `EVP_*`
  interface are external; they are parameters (`AesNi`, `OpenSSLAes`, `OpenSSLEvp`).
* A pointer that a callee reads together with a length is the list of the bytes it addresses;
  a pointer that a callee writes through is an offset into the caller's array.
-/

namespace TimeCrypt

/-! ## Buffers -/

/-- C array of exactly `n` bytes. -/
abbrev Buf (n : Nat) := { l : List Nat // l.length = n }

/-- The statement `memset(buf, 0, n)`. -/
def memset0 (n : Nat) : Buf n := ⟨List.replicate n 0, List.length_replicate n 0⟩

/-- The assignment `buf[i] = v`. -/
def Buf.set {n : Nat} (b : Buf n) (i : Nat) (v : Nat) : Buf n :=
  ⟨b.val.set i v, by rw [List.length_set]; exact b.property⟩

/-- Overwrite `mem[off .. off + bytes.length)` with `bytes`, what a callee does when it
writes `bytes` through the pointer `mem + off`; positions past the end of `mem` are dropped. -/
def poke (mem : List Nat) (off : Nat) (bytes : List Nat) : List Nat :=
  mem.take off ++ (bytes ++ mem.drop (off + bytes.length)).take (mem.length - off)

/-- Write through a pointer into a fixed-size array. -/
def Buf.poke {n : Nat} (b : Buf n) (off : Nat) (bytes : List Nat) : Buf n :=
  ⟨TimeCrypt.poke b.val off bytes, by
    have h := b.property
    simp only [TimeCrypt.poke, List.length_append, List.length_take, List.length_drop]
    omega⟩

/-! ## Constants of the translation units -/

abbrev AES_KEY_BYTES : Nat := 16
abbrev CIPHERTEXT_LEN : Nat := 16
abbrev GCM_IV : Nat := 12
abbrev AAD_LOCAL : Nat := 4
abbrev STS_OK : Int := 1
abbrev STS_ERR : Int := 0

/-! ## JNI environment -/

/-- Ghost record of one invocation of a cryptographic primitive. -/
inductive Call where
  | blockEncrypt (key data : List Nat)
  | gcm_encrypt (key iv aad plaintext : List Nat)
  | gcm_decrypt (key iv aad ciphertext tag : List Nat)
  deriving DecidableEq, Repr

/-- State of the JNI environment during one native call. -/
structure JNIEnv where
  /-- Messages of the exceptions raised so far, oldest first. -/
  thrown : List String
  /-- Primitive invocations made so far, oldest first. -/
  calls : List Call
  deriving DecidableEq, Repr

/-- Environment on entry to a native method. -/
def JNIEnv.entry : JNIEnv := ⟨[], []⟩

/-- The call `(*env)->ThrowNew(env, (*env)->FindClass(env, "java/lang/Exception"), msg)`: it
marks an exception as pending and returns to the native code. -/
def ThrowNew (env : JNIEnv) (msg : String) : JNIEnv :=
  { env with thrown := env.thrown ++ [msg] }

/-- Ghost step: note that a primitive is being invoked. -/
def JNIEnv.log (env : JNIEnv) (c : Call) : JNIEnv :=
  { env with calls := env.calls ++ [c] }

/-- The call `(*env)->GetArrayLength(env, array)`. -/
def GetArrayLength {α : Type} (array : List α) : Nat := array.length

/-- The call `(*env)->GetByteArrayRegion(env, array, start, len, buf)`: it copies the region
when it lies inside the array; otherwise it raises `ArrayIndexOutOfBoundsException` and leaves
`buf` as it was. -/
def GetByteArrayRegion (env : JNIEnv) (array : List Nat) (start len : Nat) (buf : Buf len) :
    JNIEnv × Buf len :=
  if h : start + len ≤ array.length then
    (env, ⟨(array.drop start).take len, by
      rw [List.length_take, List.length_drop]; omega⟩)
  else
    (ThrowNew env "java/lang/ArrayIndexOutOfBoundsException", buf)

/-- The helper `as_byte_array(env, buf, len)`: a fresh Java array holding the first `len`
bytes of `buf`. -/
def as_byte_array {n : Nat} (buf : Buf n) (len : Nat) : List Nat := buf.val.take len

/-- What a native method hands back to the JVM. -/
structure Outcome where
  env : JNIEnv
  /-- The `jbyteArray` named in the `return` statement. -/
  ret : List Nat
  deriving DecidableEq, Repr

/-- What the Java caller observes: the returned array, or nothing when an exception is
pending on return (the JVM then discards the native return value and throws). -/
def Outcome.result (o : Outcome) : Option (List Nat) :=
  if o.env.thrown = [] then some o.ret else none

/-- Indeterminate initial contents of the automatic arrays of a native function. -/
structure Frame where
  data : Buf 16
  seed : Buf 16
  out : Buf 16
  iv_local : Buf 12
  aad_local : Buf 4
  /-- The 32-byte array: `out` of `encryptgcm`, `data` of `decryptgcm`. -/
  wide : Buf 32

/-! ## Index encoding -/

/-- The loop
`for (int shift = 0; shift < 4; shift++) data[15 - shift] = (byte) (k >> (shift * 8)) & 0xFF;`
with `>>` the arithmetic shift of a signed `int`. -/
def encodeLoop (data : Buf 16) (k : Int) : Buf 16 :=
  (List.range 4).foldl
    (fun d shift => d.set (15 - shift) (((k >>> (shift * 8)) % 256).toNat % 256)) data

/-! ## AES-NI backend (`aes-fast-jni.c`) -/

/-- The block cipher of `aes.h`. -/
structure AesNi where
  /-- Expanded key schedule `AES_KEY`. -/
  AES_KEY : Type
  /-- The call `AES_128_Key_Expansion(userkey, key)`. -/
  AES_128_Key_Expansion : Buf 16 → AES_KEY
  /-- The call `AES_ecb_encrypt_blk(blk, key)`: the new content of the block. -/
  AES_ecb_encrypt_blk : Buf 16 → AES_KEY → Buf 16

/-- One-block encryption as the AES-NI backend performs it. -/
def AesNi.blockEncrypt (P : AesNi) (key block : Buf 16) : Buf 16 :=
  P.AES_ecb_encrypt_blk block (P.AES_128_Key_Expansion key)

/-- The native method `PRFAesNi.encrypt`. -/
def Java_ch_ethz_dsg_timecrypt_crypto_prf_PRFAesNi_encrypt (P : AesNi) (fr : Frame)
    (key_oct to_encrypt : List Nat) : Outcome :=
  let env := JNIEnv.entry
  let len_key := GetArrayLength key_oct
  let len_cont := GetArrayLength to_encrypt
  let env := if len_key ≠ AES_KEY_BYTES then ThrowNew env "Key is not 16 bytes long" else env
  let env := if len_cont ≠ AES_KEY_BYTES then ThrowNew env "Content is not 16 bytes long" else env
  let (env, seed) := GetByteArrayRegion env key_oct 0 AES_KEY_BYTES fr.seed
  let (env, data) := GetByteArrayRegion env to_encrypt 0 AES_KEY_BYTES fr.data
  let key := P.AES_128_Key_Expansion seed
  let env := env.log (.blockEncrypt seed.val data.val)
  let data := P.AES_ecb_encrypt_blk data key
  ⟨env, as_byte_array data AES_KEY_BYTES⟩

/-- The native method `PRFAesNi.apply`. -/
def Java_ch_ethz_dsg_timecrypt_crypto_prf_PRFAesNi_apply (P : AesNi) (fr : Frame)
    (key_oct : List Nat) (k : Int) : Outcome :=
  let env := JNIEnv.entry
  let len_key := GetArrayLength key_oct
  let env := if len_key ≠ AES_KEY_BYTES then ThrowNew env "Key is not 16 bytes long" else env
  let env := if k > 255 then ThrowNew env "k does not fit in one byte" else env
  let (env, seed) := GetByteArrayRegion env key_oct 0 AES_KEY_BYTES fr.seed
  let data := memset0 AES_KEY_BYTES
  let data := encodeLoop data k
  let key := P.AES_128_Key_Expansion seed
  let env := env.log (.blockEncrypt seed.val data.val)
  let data := P.AES_ecb_encrypt_blk data key
  ⟨env, as_byte_array data AES_KEY_BYTES⟩

/-- Loop state of `multiapply`: environment, `seed`, `data`. -/
structure LoopState where
  env : JNIEnv
  seed : Buf 16
  data : Buf 16

/-- The native method `PRFAesNi.multiapply`; the `for` loop over `i < k_path_len` is a fold
over `0, 1, .., k_path_len - 1`. -/
def Java_ch_ethz_dsg_timecrypt_crypto_prf_PRFAesNi_multiapply (P : AesNi) (fr : Frame)
    (key_oct : List Nat) (k_path : List Int) : Outcome :=
  let env := JNIEnv.entry
  let len_key := GetArrayLength key_oct
  let env := if len_key ≠ AES_KEY_BYTES then ThrowNew env "Key is not 16 bytes long" else env
  let (env, seed) := GetByteArrayRegion env key_oct 0 AES_KEY_BYTES fr.seed
  let data := memset0 AES_KEY_BYTES
  let k_path_len := GetArrayLength k_path
  let st := (List.range k_path_len).foldl
    (fun (st : LoopState) i =>
      let data := memset0 AES_KEY_BYTES
      let data := encodeLoop data (k_path.getD i 0)
      let key := P.AES_128_Key_Expansion st.seed
      let env := st.env.log (.blockEncrypt st.seed.val data.val)
      let data := P.AES_ecb_encrypt_blk data key
      ⟨env, data, data⟩)
    ⟨env, seed, data⟩
  ⟨st.env, as_byte_array st.seed AES_KEY_BYTES⟩

/-! ## OpenSSL backend (`aes-openssl-jni.c`) -/

/-- The low-level AES interface of `<openssl/aes.h>`. -/
structure OpenSSLAes where
  /-- Expanded key schedule `AES_KEY`. -/
  AES_KEY : Type
  /-- The call `AES_set_encrypt_key(userKey, bits, &key)`. -/
  AES_set_encrypt_key : Buf 16 → Nat → AES_KEY
  /-- The call `AES_encrypt(in, out, &key)`: the 16 bytes written to `out`. -/
  AES_encrypt : Buf 16 → AES_KEY → Buf 16

/-- The helper `int encrypt(byte *plaintext, byte *key, byte *ciphertext)`: status and the new
content of `ciphertext`. -/
def encrypt (A : OpenSSLAes) (plaintext key : Buf 16) : Int × Buf 16 :=
  let key_aes := A.AES_set_encrypt_key key 128
  let ciphertext := A.AES_encrypt plaintext key_aes
  (STS_OK, ciphertext)

/-- One-block encryption as the OpenSSL backend performs it. -/
def OpenSSLAes.blockEncrypt (A : OpenSSLAes) (key block : Buf 16) : Buf 16 :=
  A.AES_encrypt block (A.AES_set_encrypt_key key 128)

/-- The native method `PRFAesOpenSSL.encrypt`. -/
def Java_ch_ethz_dsg_timecrypt_crypto_prf_PRFAesOpenSSL_encrypt (A : OpenSSLAes) (fr : Frame)
    (key_oct to_encrypt : List Nat) : Outcome :=
  let env := JNIEnv.entry
  let len_key := GetArrayLength key_oct
  let len_cont := GetArrayLength to_encrypt
  let env := if len_key ≠ AES_KEY_BYTES then ThrowNew env "Key is not 16 bytes long" else env
  let env := if len_cont ≠ AES_KEY_BYTES then ThrowNew env "Content is not 16 bytes long" else env
  let (env, seed) := GetByteArrayRegion env key_oct 0 AES_KEY_BYTES fr.seed
  let (env, data) := GetByteArrayRegion env to_encrypt 0 AES_KEY_BYTES fr.data
  let env := env.log (.blockEncrypt seed.val data.val)
  let (sts, out) := encrypt A data seed
  let env := if STS_OK ≠ sts then ThrowNew env "Error AES encryption" else env
  ⟨env, as_byte_array out AES_KEY_BYTES⟩

/-- The native method `PRFAesOpenSSL.apply`. -/
def Java_ch_ethz_dsg_timecrypt_crypto_prf_PRFAesOpenSSL_apply (A : OpenSSLAes) (fr : Frame)
    (key_oct : List Nat) (k : Int) : Outcome :=
  let env := JNIEnv.entry
  let len_key := GetArrayLength key_oct
  let env := if len_key ≠ AES_KEY_BYTES then ThrowNew env "Key is not 16 bytes long" else env
  let (env, seed) := GetByteArrayRegion env key_oct 0 AES_KEY_BYTES fr.seed
  let data := memset0 AES_KEY_BYTES
  let data := encodeLoop data k
  let env := env.log (.blockEncrypt seed.val data.val)
  let (sts, out) := encrypt A data seed
  let env := if STS_OK ≠ sts then ThrowNew env "Error AES encryption" else env
  ⟨env, as_byte_array out AES_KEY_BYTES⟩

/-- The native method `PRFAesOpenSSL.multiapply`; the loop state also carries `out`. -/
def Java_ch_ethz_dsg_timecrypt_crypto_prf_PRFAesOpenSSL_multiapply (A : OpenSSLAes)
    (fr : Frame) (key_oct : List Nat) (k_path : List Int) : Outcome :=
  let env := JNIEnv.entry
  let len_key := GetArrayLength key_oct
  let env := if len_key ≠ AES_KEY_BYTES then ThrowNew env "Key is not 16 bytes long" else env
  let (env, seed) := GetByteArrayRegion env key_oct 0 AES_KEY_BYTES fr.seed
  let data := memset0 AES_KEY_BYTES
  let k_path_len := GetArrayLength k_path
  let st := (List.range k_path_len).foldl
    (fun (st : LoopState × Buf 16) i =>
      let data := memset0 AES_KEY_BYTES
      let data := encodeLoop data (k_path.getD i 0)
      let env := st.1.env.log (.blockEncrypt st.1.seed.val data.val)
      let (sts, out) := encrypt A data st.1.seed
      let env := if STS_OK ≠ sts then ThrowNew env "Error AES encryption" else env
      (⟨env, out, data⟩, out))
    (⟨env, seed, data⟩, fr.out)
  ⟨st.1.env, as_byte_array st.1.seed AES_KEY_BYTES⟩

/-! ## AES-128-GCM through the OpenSSL `EVP_*` interface -/

/-- Cipher argument of `EVP_EncryptInit_ex` and `EVP_DecryptInit_ex`. -/
inductive EVP_CIPHER where
  | EVP_aes_128_gcm
  deriving DecidableEq, Repr

/-- Request argument of `EVP_CIPHER_CTX_ctrl`. -/
inductive EVP_CTRL where
  | EVP_CTRL_GCM_SET_IVLEN
  | EVP_CTRL_GCM_GET_TAG
  | EVP_CTRL_GCM_SET_TAG
  deriving DecidableEq, Repr

/-- The calls of `<openssl/evp.h>` made by `gcm_encrypt` and `gcm_decrypt`.  Every call takes
the cipher context and yields its `int` return value and the updated context; a call that
writes through an output pointer also yields the bytes it wrote (their count is what it stores
in `*outl`).  A `NULL` argument is `none`. -/
structure OpenSSLEvp where
  EVP_CIPHER_CTX : Type
  /-- The call `EVP_CIPHER_CTX_new()`, `none` for `NULL`. -/
  EVP_CIPHER_CTX_new : Option EVP_CIPHER_CTX
  /-- The call `EVP_EncryptInit_ex(ctx, cipher, NULL, key, iv)`. -/
  EVP_EncryptInit_ex : EVP_CIPHER_CTX → Option EVP_CIPHER → Option (List Nat) →
    Option (List Nat) → Int × EVP_CIPHER_CTX
  /-- The call `EVP_DecryptInit_ex(ctx, cipher, NULL, key, iv)`. -/
  EVP_DecryptInit_ex : EVP_CIPHER_CTX → Option EVP_CIPHER → Option (List Nat) →
    Option (List Nat) → Int × EVP_CIPHER_CTX
  /-- The call `EVP_CIPHER_CTX_ctrl(ctx, type, arg, ptr)`: the third argument is `arg`, the
  fourth the bytes read through `ptr` (`none` when `ptr` is `NULL` or only written); the
  result carries the bytes written through `ptr`. -/
  EVP_CIPHER_CTX_ctrl : EVP_CIPHER_CTX → EVP_CTRL → Nat → Option (List Nat) →
    Int × EVP_CIPHER_CTX × List Nat
  /-- The call `EVP_EncryptUpdate(ctx, out, &outl, in, inl)`: the flag tells whether `out` is
  non-`NULL`, the list holds the `inl` bytes at `in`. -/
  EVP_EncryptUpdate : EVP_CIPHER_CTX → Bool → List Nat → Int × EVP_CIPHER_CTX × List Nat
  /-- The call `EVP_DecryptUpdate(ctx, out, &outl, in, inl)`. -/
  EVP_DecryptUpdate : EVP_CIPHER_CTX → Bool → List Nat → Int × EVP_CIPHER_CTX × List Nat
  /-- The call `EVP_EncryptFinal_ex(ctx, out, &outl)`. -/
  EVP_EncryptFinal_ex : EVP_CIPHER_CTX → Int × EVP_CIPHER_CTX × List Nat
  /-- The call `EVP_DecryptFinal_ex(ctx, out, &outl)`; a positive return value means that the
  tag verified. -/
  EVP_DecryptFinal_ex : EVP_CIPHER_CTX → Int × EVP_CIPHER_CTX × List Nat

/-- The function `gcm_encrypt`.  The output pointers `ciphertext` and `tag` are offsets into
the caller's array `mem`, whose final content is returned with the `int` result. -/
def gcm_encrypt (S : OpenSSLEvp) (plaintext : List Nat) (plaintext_len : Nat)
    (aad : List Nat) (aad_len : Nat) (key : List Nat) (iv : List Nat) (iv_len : Nat)
    {n : Nat} (mem : Buf n) (ciphertext tag : Nat) : Int × Buf n :=
  match S.EVP_CIPHER_CTX_new with
  | none => (STS_ERR, mem)
  | some ctx =>
    let (r, ctx) := S.EVP_EncryptInit_ex ctx (some .EVP_aes_128_gcm) none none
    if 1 ≠ r then (STS_ERR, mem) else
    let (r, ctx, _) := S.EVP_CIPHER_CTX_ctrl ctx .EVP_CTRL_GCM_SET_IVLEN iv_len none
    if 1 ≠ r then (STS_ERR, mem) else
    let (r, ctx) := S.EVP_EncryptInit_ex ctx none (some key) (some (iv.take iv_len))
    if 1 ≠ r then (STS_ERR, mem) else
    let (r, ctx, _) := S.EVP_EncryptUpdate ctx false (aad.take aad_len)
    if 1 ≠ r then (STS_ERR, mem) else
    let (r, ctx, w) := S.EVP_EncryptUpdate ctx true (plaintext.take plaintext_len)
    let mem := mem.poke ciphertext w
    let len := w.length
    if 1 ≠ r then (STS_ERR, mem) else
    let ciphertext_len := len
    let (r, ctx, w) := S.EVP_EncryptFinal_ex ctx
    let mem := mem.poke (ciphertext + len) w
    let len := w.length
    if 1 ≠ r then (STS_ERR, mem) else
    let ciphertext_len := ciphertext_len + len
    let (r, _, w) := S.EVP_CIPHER_CTX_ctrl ctx .EVP_CTRL_GCM_GET_TAG 16 none
    let mem := mem.poke tag w
    if 1 ≠ r then (STS_ERR, mem) else
    ((ciphertext_len : Int), mem)

/-- The function `gcm_decrypt`; the output pointer `plaintext` is an offset into the caller's
array `mem`. -/
def gcm_decrypt (S : OpenSSLEvp) (ciphertext : List Nat) (ciphertext_len : Nat)
    (aad : List Nat) (aad_len : Nat) (tag : List Nat) (key : List Nat)
    (iv : List Nat) (iv_len : Nat) {n : Nat} (mem : Buf n) (plaintext : Nat) : Int × Buf n :=
  match S.EVP_CIPHER_CTX_new with
  | none => (STS_ERR, mem)
  | some ctx =>
    let (r, ctx) := S.EVP_DecryptInit_ex ctx (some .EVP_aes_128_gcm) none none
    if r = 0 then (STS_ERR, mem) else
    let (r, ctx, _) := S.EVP_CIPHER_CTX_ctrl ctx .EVP_CTRL_GCM_SET_IVLEN iv_len none
    if r = 0 then (STS_ERR, mem) else
    let (r, ctx) := S.EVP_DecryptInit_ex ctx none (some key) (some (iv.take iv_len))
    if r = 0 then (STS_ERR, mem) else
    let (r, ctx, _) := S.EVP_DecryptUpdate ctx false (aad.take aad_len)
    if r = 0 then (STS_ERR, mem) else
    let (r, ctx, w) := S.EVP_DecryptUpdate ctx true (ciphertext.take ciphertext_len)
    let mem := mem.poke plaintext w
    let len := w.length
    if r = 0 then (STS_ERR, mem) else
    let plaintext_len := len
    let (r, ctx, _) := S.EVP_CIPHER_CTX_ctrl ctx .EVP_CTRL_GCM_SET_TAG 16 (some (tag.take 16))
    if r = 0 then (STS_ERR, mem) else
    let (ret, _, w) := S.EVP_DecryptFinal_ex ctx
    let mem := mem.poke (plaintext + len) w
    let len := w.length
    if ret > 0 then
      let plaintext_len := plaintext_len + len
      ((plaintext_len : Int), mem)
    else
      (-1, mem)

/-- The native method `PRFAesOpenSSL.encryptgcm`. -/
def Java_ch_ethz_dsg_timecrypt_crypto_prf_PRFAesOpenSSL_encryptgcm (S : OpenSSLEvp)
    (fr : Frame) (key_oct aad to_encrypt iv : List Nat) : Outcome :=
  let env := JNIEnv.entry
  let len_key := GetArrayLength key_oct
  let len_cont := GetArrayLength to_encrypt
  let len_iv := GetArrayLength iv
  let len_aad := GetArrayLength aad
  let env := if len_key ≠ AES_KEY_BYTES then ThrowNew env "Key is not 16 bytes long" else env
  let env := if len_cont ≠ AES_KEY_BYTES then ThrowNew env "Content is not 16 bytes long" else env
  let env := if len_iv ≠ GCM_IV then ThrowNew env "IV is not 12 bytes long" else env
  let env := if len_aad ≠ AAD_LOCAL then ThrowNew env "ADD is not 4 bytes long" else env
  let (env, seed) := GetByteArrayRegion env key_oct 0 AES_KEY_BYTES fr.seed
  let (env, data) := GetByteArrayRegion env to_encrypt 0 AES_KEY_BYTES fr.data
  let (env, iv_local) := GetByteArrayRegion env iv 0 GCM_IV fr.iv_local
  let (env, aad_local) := GetByteArrayRegion env aad 0 AAD_LOCAL fr.aad_local
  let env := env.log (.gcm_encrypt seed.val iv_local.val aad_local.val data.val)
  let (r, out) := gcm_encrypt S data.val AES_KEY_BYTES aad_local.val AAD_LOCAL seed.val
    iv_local.val GCM_IV fr.wide 0 AES_KEY_BYTES
  let env := if (AES_KEY_BYTES : Int) ≠ r then ThrowNew env "Error AES encryption" else env
  ⟨env, as_byte_array out (AES_KEY_BYTES * 2)⟩

/-- The native method `PRFAesOpenSSL.decryptgcm`. -/
def Java_ch_ethz_dsg_timecrypt_crypto_prf_PRFAesOpenSSL_decryptgcm (S : OpenSSLEvp)
    (fr : Frame) (key_oct aad ciphertext iv : List Nat) : Outcome :=
  let env := JNIEnv.entry
  let len_key := GetArrayLength key_oct
  let len_data := GetArrayLength ciphertext
  let len_iv := GetArrayLength iv
  let len_aad := GetArrayLength aad
  let env := if len_key ≠ AES_KEY_BYTES then ThrowNew env "Key is not 16 bytes long" else env
  let env := if len_data ≠ AES_KEY_BYTES * 2 then
    ThrowNew env "Ciphertext is not 16 bytes long" else env
  let env := if len_iv ≠ GCM_IV then ThrowNew env "IV is not 12 bytes long" else env
  let env := if len_aad ≠ AAD_LOCAL then ThrowNew env "ADD is not 4 bytes long" else env
  let (env, seed) := GetByteArrayRegion env key_oct 0 AES_KEY_BYTES fr.seed
  let (env, data) := GetByteArrayRegion env ciphertext 0 (AES_KEY_BYTES * 2) fr.wide
  let (env, iv_local) := GetByteArrayRegion env iv 0 GCM_IV fr.iv_local
  let (env, aad_local) := GetByteArrayRegion env aad 0 AAD_LOCAL fr.aad_local
  let env := env.log (.gcm_decrypt seed.val iv_local.val aad_local.val
    (data.val.take AES_KEY_BYTES) ((data.val.drop AES_KEY_BYTES).take 16))
  let (err, out) := gcm_decrypt S data.val AES_KEY_BYTES aad_local.val AAD_LOCAL
    (data.val.drop AES_KEY_BYTES) seed.val iv_local.val GCM_IV fr.out 0
  let env := if -1 = err then ThrowNew env "Authentication failed" else env
  let env := if STS_ERR = err then ThrowNew env "Decryption failed" else env
  ⟨env, as_byte_array out AES_KEY_BYTES⟩

/-! ## The primitives as the specification sees them -/

/-- Specification block for an index: 12 zero bytes followed by the 32-bit big-endian
encoding of `u`. -/
def indexBlock (u : Nat) : Buf 16 :=
  ⟨List.replicate 12 0 ++ [u / 2 ^ 24 % 256, u / 2 ^ 16 % 256, u / 2 ^ 8 % 256, u % 256],
    by simp⟩

/-- The unsigned 32-bit value of a `jint`. -/
def toUInt32 (k : Int) : Nat := (k % 2 ^ 32).toNat

/-- A `jint` is a signed 32-bit integer. -/
def IsJint (k : Int) : Prop := -2 ^ 31 ≤ k ∧ k < 2 ^ 31

instance (k : Int) : Decidable (IsJint k) := by unfold IsJint; infer_instance

/-- Specification of `multiapply` for the AES-NI backend: left fold of the derivation step. -/
def deriveNi (P : AesNi) (seed : Buf 16) (path : List Int) : Buf 16 :=
  path.foldl (fun k i => P.blockEncrypt k (indexBlock (toUInt32 i))) seed

/-- Specification of `multiapply` for the OpenSSL backend: left fold of the derivation step. -/
def deriveOpenSSL (A : OpenSSLAes) (seed : Buf 16) (path : List Int) : Buf 16 :=
  path.foldl (fun k i => A.blockEncrypt k (indexBlock (toUInt32 i))) seed

/-- Body of the loop of `PRFAesNi.multiapply`, the block written in closed form. -/
def niStep (P : AesNi) (st : LoopState) (k : Int) : LoopState :=
  ⟨st.env.log (.blockEncrypt st.seed.val (indexBlock (toUInt32 k)).val),
   P.blockEncrypt st.seed (indexBlock (toUInt32 k)),
   P.blockEncrypt st.seed (indexBlock (toUInt32 k))⟩

/-- Body of the loop of `PRFAesOpenSSL.multiapply`, the block written in closed form. -/
def osslStep (A : OpenSSLAes) (st : LoopState × Buf 16) (k : Int) : LoopState × Buf 16 :=
  (⟨st.1.env.log (.blockEncrypt st.1.seed.val (indexBlock (toUInt32 k)).val),
    A.blockEncrypt st.1.seed (indexBlock (toUInt32 k)), indexBlock (toUInt32 k)⟩,
   A.blockEncrypt st.1.seed (indexBlock (toUInt32 k)))

/-- Specification primitive `aeadSeal(key, nonce, aad, plaintext)`: AES-128-GCM sealing through
the EVP interface.  It succeeds with the ciphertext and the tag when every EVP call reports
success (returns 1). -/
def aeadSeal (S : OpenSSLEvp) (key nonce aad plaintext : List Nat) :
    Option (List Nat × List Nat) :=
  S.EVP_CIPHER_CTX_new.bind fun c =>
    let i := S.EVP_EncryptInit_ex c (some .EVP_aes_128_gcm) none none
    let l := S.EVP_CIPHER_CTX_ctrl i.2 .EVP_CTRL_GCM_SET_IVLEN nonce.length none
    let k := S.EVP_EncryptInit_ex l.2.1 none (some key) (some nonce)
    let a := S.EVP_EncryptUpdate k.2 false aad
    let u := S.EVP_EncryptUpdate a.2.1 true plaintext
    let f := S.EVP_EncryptFinal_ex u.2.1
    let t := S.EVP_CIPHER_CTX_ctrl f.2.1 .EVP_CTRL_GCM_GET_TAG 16 none
    if i.1 = 1 ∧ l.1 = 1 ∧ k.1 = 1 ∧ a.1 = 1 ∧ u.1 = 1 ∧ f.1 = 1 ∧ t.1 = 1 then
      some (u.2.2 ++ f.2.2, t.2.2)
    else none

/-- Result of the specification primitive `aeadOpen`. -/
inductive OpenResult where
  | plaintext (p : List Nat)
  | authenticationFailure
  | internalError
  deriving DecidableEq, Repr

/-- Specification primitive `aeadOpen(key, nonce, aad, ciphertext, tag)`: AES-128-GCM opening
through the EVP interface.  The tag verifies when `EVP_DecryptFinal_ex` returns a positive
value; a set-up call that returns 0 is an internal error. -/
def aeadOpen (S : OpenSSLEvp) (key nonce aad ciphertext tag : List Nat) : OpenResult :=
  match S.EVP_CIPHER_CTX_new with
  | none => .internalError
  | some c =>
    let i := S.EVP_DecryptInit_ex c (some .EVP_aes_128_gcm) none none
    let l := S.EVP_CIPHER_CTX_ctrl i.2 .EVP_CTRL_GCM_SET_IVLEN nonce.length none
    let k := S.EVP_DecryptInit_ex l.2.1 none (some key) (some nonce)
    let a := S.EVP_DecryptUpdate k.2 false aad
    let u := S.EVP_DecryptUpdate a.2.1 true ciphertext
    let t := S.EVP_CIPHER_CTX_ctrl u.2.1 .EVP_CTRL_GCM_SET_TAG 16 (some tag)
    let f := S.EVP_DecryptFinal_ex t.2.1
    if i.1 = 0 ∨ l.1 = 0 ∨ k.1 = 0 ∨ a.1 = 0 ∨ u.1 = 0 ∨ t.1 = 0 then .internalError
    else if f.1 > 0 then .plaintext (u.2.2 ++ f.2.2)
    else .authenticationFailure

/-! ## Concrete instances used to exercise the model -/

/-- Bytewise exclusive or of two buffers. -/
def xorBuf {n : Nat} (a b : Buf n) : Buf n :=
  ⟨List.zipWith Nat.xor a.val b.val, by
    rw [List.length_zipWith, a.property, b.property, Nat.min_self]⟩

/-- A stand-in for the AES-NI primitive: the block is xored with the key. -/
def toyNi : AesNi where
  AES_KEY := Buf 16
  AES_128_Key_Expansion := fun k => k
  AES_ecb_encrypt_blk := fun d k => xorBuf d k

/-- A stand-in for the OpenSSL AES primitive: the block is xored with the key. -/
def toyAes : OpenSSLAes where
  AES_KEY := Buf 16
  AES_set_encrypt_key := fun k _ => k
  AES_encrypt := fun d k => xorBuf d k

/-- Context of the stand-in AEAD. -/
structure ToyCtx where
  key : List Nat
  iv : List Nat
  aad : List Nat
  text : List Nat
  tag : List Nat
  deriving DecidableEq, Repr

/-- Tag of the stand-in AEAD: key, ciphertext and nonce-with-aad xored together. -/
def toyTag (c : ToyCtx) : List Nat :=
  List.zipWith Nat.xor (List.zipWith Nat.xor c.key c.text) (c.iv ++ c.aad)

/-- A stand-in for AES-128-GCM behind the EVP interface: the text is xored with the key and
the tag is checked by `EVP_DecryptFinal_ex`. -/
def toyEVP : OpenSSLEvp where
  EVP_CIPHER_CTX := ToyCtx
  EVP_CIPHER_CTX_new := some ⟨[], [], [], [], []⟩
  EVP_EncryptInit_ex := fun c _ key iv =>
    (1, { c with key := key.getD c.key, iv := iv.getD c.iv })
  EVP_DecryptInit_ex := fun c _ key iv =>
    (1, { c with key := key.getD c.key, iv := iv.getD c.iv })
  EVP_CIPHER_CTX_ctrl := fun c type arg ptr =>
    match type with
    | .EVP_CTRL_GCM_SET_IVLEN => (if arg = 0 then 0 else 1, c, [])
    | .EVP_CTRL_GCM_GET_TAG => (1, c, (toyTag c).take arg)
    | .EVP_CTRL_GCM_SET_TAG => (1, { c with tag := (ptr.getD []).take arg }, [])
  EVP_EncryptUpdate := fun c out inp =>
    if out then
      (1, { c with text := List.zipWith Nat.xor inp c.key }, List.zipWith Nat.xor inp c.key)
    else (1, { c with aad := inp }, [])
  EVP_DecryptUpdate := fun c out inp =>
    if out then (1, { c with text := inp }, List.zipWith Nat.xor inp c.key)
    else (1, { c with aad := inp }, [])
  EVP_EncryptFinal_ex := fun c => (1, c, [])
  EVP_DecryptFinal_ex := fun c => (if c.tag = toyTag c then 1 else 0, c, [])

/-- A stack frame whose arrays hold `0xAA` bytes. -/
def frameAA : Frame where
  data := ⟨List.replicate 16 170, rfl⟩
  seed := ⟨List.replicate 16 170, rfl⟩
  out := ⟨List.replicate 16 170, rfl⟩
  iv_local := ⟨List.replicate 12 170, rfl⟩
  aad_local := ⟨List.replicate 4 170, rfl⟩
  wide := ⟨List.replicate 32 170, rfl⟩



/-! ## Basic facts -/

theorem encodeLoop_memset0 (k : Int) :
    encodeLoop (memset0 16) k = indexBlock (toUInt32 k) := by
  apply Subtype.ext
  simp only [encodeLoop, indexBlock, toUInt32, memset0, Buf.set, List.range, List.range.loop,
    List.foldl, List.replicate, List.set, Int.shiftRight_eq_div_pow]
  simp only [List.cons_append, List.nil_append, List.cons.injEq, and_true, true_and]
  refine ⟨?_, ?_, ?_, ?_⟩ <;> omega

theorem GetByteArrayRegion_exact (env : JNIEnv) (a : List Nat) (n : Nat) (h : a.length = n)
    (buf : Buf n) : GetByteArrayRegion env a 0 n buf = (env, ⟨a, h⟩) := by
  have hle : 0 + n ≤ a.length := by omega
  simp only [GetByteArrayRegion, hle, dite_true, List.drop_zero]
  congr 1
  apply Subtype.ext
  exact List.take_of_length_le (by omega)

theorem as_byte_array_full {n : Nat} (b : Buf n) : as_byte_array b n = b.val := by
  exact List.take_of_length_le (le_of_eq b.property)

/-- A counted loop over an array visits its elements in order. -/
theorem foldl_range'_getD {σ : Type} (f : σ → Int → σ) (l pre : List Int) (s : σ) :
    (List.range' pre.length l.length).foldl (fun st i => f st ((pre ++ l).getD i 0)) s
      = l.foldl f s := by
  induction l generalizing pre s with
  | nil => simp
  | cons a l ih =>
    have h := ih (pre ++ [a]) (f s a)
    simp only [List.length_append, List.length_singleton, List.append_assoc,
      List.singleton_append] at h
    simp only [List.length_cons, List.range'_succ, List.foldl_cons]
    rw [← h]
    have e : (pre ++ a :: l).getD pre.length 0 = a := by
      rw [List.getD_eq_getElem?_getD, List.getElem?_append_right (le_refl _)]
      simp
    rw [e]

theorem foldl_range_getD {σ : Type} (f : σ → Int → σ) (l : List Int) (s : σ) :
    (List.range l.length).foldl (fun st i => f st (l.getD i 0)) s = l.foldl f s := by
  have h := foldl_range'_getD f l [] s
  simpa [List.range_eq_range'] using h



/-! ## Single-step derivation -/

theorem PRFAesNi_apply_outcome (P : AesNi) (fr : Frame) (seed : List Nat) (k : Int)
    (hs : seed.length = 16) :
    Java_ch_ethz_dsg_timecrypt_crypto_prf_PRFAesNi_apply P fr seed k =
      ⟨⟨if k > 255 then ["k does not fit in one byte"] else [],
        [.blockEncrypt seed (indexBlock (toUInt32 k)).val]⟩,
       (P.blockEncrypt ⟨seed, hs⟩ (indexBlock (toUInt32 k))).val⟩ := by
  unfold Java_ch_ethz_dsg_timecrypt_crypto_prf_PRFAesNi_apply
  simp only [GetArrayLength, hs, ne_eq, not_true_eq_false, ite_false,
    GetByteArrayRegion_exact _ seed 16 hs, encodeLoop_memset0, as_byte_array_full,
    AesNi.blockEncrypt, JNIEnv.log, JNIEnv.entry, ThrowNew]
  split <;> simp

theorem PRFAesOpenSSL_apply_outcome (A : OpenSSLAes) (fr : Frame) (seed : List Nat) (k : Int)
    (hs : seed.length = 16) :
    Java_ch_ethz_dsg_timecrypt_crypto_prf_PRFAesOpenSSL_apply A fr seed k =
      ⟨⟨[], [.blockEncrypt seed (indexBlock (toUInt32 k)).val]⟩,
       (A.blockEncrypt ⟨seed, hs⟩ (indexBlock (toUInt32 k))).val⟩ := by
  unfold Java_ch_ethz_dsg_timecrypt_crypto_prf_PRFAesOpenSSL_apply
  simp only [GetArrayLength, hs, ne_eq, not_true_eq_false, ite_false,
    GetByteArrayRegion_exact _ seed 16 hs, encodeLoop_memset0, as_byte_array_full,
    OpenSSLAes.blockEncrypt, JNIEnv.log, JNIEnv.entry, encrypt]
  simp

/-! ## Path derivation -/

theorem PRFAesNi_multiapply_fold (P : AesNi) (fr : Frame) (seed : List Nat) (path : List Int)
    (hs : seed.length = 16) :
    Java_ch_ethz_dsg_timecrypt_crypto_prf_PRFAesNi_multiapply P fr seed path =
      ⟨(path.foldl (niStep P) ⟨JNIEnv.entry, ⟨seed, hs⟩, memset0 16⟩).env,
       (path.foldl (niStep P) ⟨JNIEnv.entry, ⟨seed, hs⟩, memset0 16⟩).seed.val⟩ := by
  unfold Java_ch_ethz_dsg_timecrypt_crypto_prf_PRFAesNi_multiapply
  simp only [GetArrayLength, hs, ne_eq, not_true_eq_false, ite_false,
    GetByteArrayRegion_exact _ seed 16 hs, encodeLoop_memset0, as_byte_array_full]
  exact congrArg (fun st : LoopState => (⟨st.env, st.seed.val⟩ : Outcome))
    (foldl_range_getD (niStep P) path ⟨JNIEnv.entry, ⟨seed, hs⟩, memset0 16⟩)

theorem PRFAesOpenSSL_multiapply_fold (A : OpenSSLAes) (fr : Frame) (seed : List Nat)
    (path : List Int) (hs : seed.length = 16) :
    Java_ch_ethz_dsg_timecrypt_crypto_prf_PRFAesOpenSSL_multiapply A fr seed path =
      ⟨(path.foldl (osslStep A) (⟨JNIEnv.entry, ⟨seed, hs⟩, memset0 16⟩, fr.out)).1.env,
       (path.foldl (osslStep A) (⟨JNIEnv.entry, ⟨seed, hs⟩, memset0 16⟩, fr.out)).1.seed.val⟩ := by
  unfold Java_ch_ethz_dsg_timecrypt_crypto_prf_PRFAesOpenSSL_multiapply
  simp only [GetArrayLength, hs, ne_eq, not_true_eq_false, ite_false,
    GetByteArrayRegion_exact _ seed 16 hs, encodeLoop_memset0, as_byte_array_full, encrypt]
  exact congrArg (fun st : LoopState × Buf 16 => (⟨st.1.env, st.1.seed.val⟩ : Outcome))
    (foldl_range_getD (osslStep A) path (⟨JNIEnv.entry, ⟨seed, hs⟩, memset0 16⟩, fr.out))

theorem niStep_fold (P : AesNi) (path : List Int) (st : LoopState) :
    (path.foldl (niStep P) st).seed = deriveNi P st.seed path
    ∧ (path.foldl (niStep P) st).env.thrown = st.env.thrown := by
  induction path generalizing st with
  | nil => exact ⟨rfl, rfl⟩
  | cons k path ih =>
    simp only [List.foldl_cons, deriveNi]
    exact ih (niStep P st k)

theorem osslStep_fold (A : OpenSSLAes) (path : List Int) (st : LoopState × Buf 16) :
    (path.foldl (osslStep A) st).1.seed = deriveOpenSSL A st.1.seed path
    ∧ (path.foldl (osslStep A) st).1.env.thrown = st.1.env.thrown := by
  induction path generalizing st with
  | nil => exact ⟨rfl, rfl⟩
  | cons k path ih =>
    simp only [List.foldl_cons, deriveOpenSSL]
    exact ih (osslStep A st k)

theorem PRFAesNi_multiapply_result (P : AesNi) (fr : Frame) (seed : List Nat) (path : List Int)
    (hs : seed.length = 16) :
    (Java_ch_ethz_dsg_timecrypt_crypto_prf_PRFAesNi_multiapply
          P fr seed path).result = some (deriveNi P ⟨seed, hs⟩ path).val := by
  rw [PRFAesNi_multiapply_fold P fr seed path hs]
  have h := niStep_fold P path ⟨JNIEnv.entry, ⟨seed, hs⟩, memset0 16⟩
  simp only [Outcome.result, h.1, h.2]
  rfl

theorem PRFAesOpenSSL_multiapply_result (A : OpenSSLAes) (fr : Frame) (seed : List Nat)
    (path : List Int) (hs : seed.length = 16) :
    (Java_ch_ethz_dsg_timecrypt_crypto_prf_PRFAesOpenSSL_multiapply A fr seed path).result
      = some (deriveOpenSSL A ⟨seed, hs⟩ path).val := by
  rw [PRFAesOpenSSL_multiapply_fold A fr seed path hs]
  have h := osslStep_fold A path (⟨JNIEnv.entry, ⟨seed, hs⟩, memset0 16⟩, fr.out)
  simp only [Outcome.result, h.1, h.2]
  rfl



theorem toUInt32_natCast (n : Nat) (h : n < 2 ^ 32) : toUInt32 (n : Int) = n := by
  unfold toUInt32
  omega

theorem toUInt32_lt (k : Int) : toUInt32 k < 2 ^ 32 := by
  unfold toUInt32
  omega

theorem toUInt32_injOn (i j : Int) (hi : IsJint i) (hj : IsJint j)
    (h : toUInt32 i = toUInt32 j) : i = j := by
  unfold toUInt32 at h
  unfold IsJint at hi hj
  omega

theorem indexBlock_injOn (u v : Nat) (hu : u < 2 ^ 32) (hv : v < 2 ^ 32)
    (h : indexBlock u = indexBlock v) : u = v := by
  have h2 := congrArg Subtype.val h
  simp only [indexBlock, List.append_cancel_left_eq, List.cons.injEq, and_true] at h2
  omega

theorem indexBlock_byte (n : Nat) (h : n ≤ 255) :
    (indexBlock n).val = [0, 0, 0, 0, 0, 0, 0, 0, 0, 0, 0, 0, 0, 0, 0, n] := by
  simp only [indexBlock, List.replicate, List.cons_append, List.nil_append, List.cons.injEq,
    and_true, true_and]
  omega

theorem xorBuf_left_injective {n : Nat} (k : Buf n) :
    Function.Injective (fun d : Buf n => xorBuf d k) := by
  intro a b h
  have h2 : List.zipWith Nat.xor a.val k.val = List.zipWith Nat.xor b.val k.val :=
    congrArg Subtype.val h
  have key : ∀ (ks as bs : List Nat), as.length = ks.length → bs.length = ks.length →
      List.zipWith Nat.xor as ks = List.zipWith Nat.xor bs ks → as = bs := by
    intro ks
    induction ks with
    | nil =>
      intro as bs ha hb _
      rw [List.length_eq_zero.mp ha, List.length_eq_zero.mp hb]
    | cons c ks ih =>
      intro as bs ha hb hz
      cases as with
      | nil => simp at ha
      | cons x as =>
        cases bs with
        | nil => simp at hb
        | cons y bs =>
          simp only [List.zipWith_cons_cons, List.cons.injEq] at hz
          have hxy : x = y := Nat.xor_left_inj.mp hz.1
          have hrest := ih as bs (by simpa using ha) (by simpa using hb) hz.2
          rw [hxy, hrest]
  exact Subtype.ext (key k.val a.val b.val (by rw [a.property, k.property])
    (by rw [b.property, k.property]) h2)



/-! ## Writes through pointers -/

theorem poke_append (a b w : List Nat) (h : w.length ≤ b.length) :
    poke (a ++ b) a.length w = a ++ (w ++ b.drop w.length) := by
  unfold poke
  rw [List.take_left' rfl, List.length_append, Nat.add_sub_cancel_left,
    List.drop_append_eq_append_drop]
  have e1 : a.length + w.length - a.length = w.length := by omega
  have e2 : List.drop (a.length + w.length) a = [] :=
    List.drop_eq_nil_of_le (by omega)
  rw [e1, e2, List.nil_append]
  congr 1
  apply List.take_of_length_le
  rw [List.length_append, List.length_drop]
  omega

theorem poke_zero (b w : List Nat) (h : w.length ≤ b.length) :
    poke b 0 w = w ++ b.drop w.length := by
  have e := poke_append [] b w h
  simpa using e

/-- Three successive writes that fill a 32-byte array: `w1` at offset 0, `w2` right behind
it, and `t` at offset 16. -/
theorem poke_seal_layout (mem w1 w2 t : List Nat) (hm : mem.length = 32)
    (hc : (w1 ++ w2).length = 16) (ht : t.length = 16) :
    poke (poke (poke mem 0 w1) (0 + w1.length) w2) 16 t = (w1 ++ w2) ++ t := by
  rw [List.length_append] at hc
  rw [poke_zero mem w1 (by omega), Nat.zero_add,
    poke_append w1 (mem.drop w1.length) w2 (by rw [List.length_drop]; omega)]
  have e : w1 ++ (w2 ++ List.drop w2.length (List.drop w1.length mem))
      = (w1 ++ w2) ++ List.drop w2.length (List.drop w1.length mem) := by
    rw [List.append_assoc]
  have hl : (w1 ++ w2).length = 16 := by rw [List.length_append]; exact hc
  rw [e]
  have h3 := poke_append (w1 ++ w2) (List.drop w2.length (List.drop w1.length mem)) t
    (by rw [List.length_drop, List.length_drop]; omega)
  rw [hl] at h3
  rw [h3]
  congr 1
  have : List.drop t.length (List.drop w2.length (List.drop w1.length mem)) = [] :=
    List.drop_eq_nil_of_le (by rw [List.length_drop, List.length_drop]; omega)
  rw [this, List.append_nil]

/-- Two successive writes that fill a 16-byte array. -/
theorem poke_open_layout (mem w1 w2 : List Nat) (hm : mem.length = 16)
    (hp : (w1 ++ w2).length = 16) :
    poke (poke mem 0 w1) (0 + w1.length) w2 = w1 ++ w2 := by
  rw [List.length_append] at hp
  rw [poke_zero mem w1 (by omega), Nat.zero_add,
    poke_append w1 (mem.drop w1.length) w2 (by rw [List.length_drop]; omega)]
  have : List.drop w2.length (List.drop w1.length mem) = [] :=
    List.drop_eq_nil_of_le (by rw [List.length_drop]; omega)
  rw [this, List.append_nil]


/-! ## `gcm_encrypt` and `gcm_decrypt` against the specification primitives -/

theorem gcm_encrypt_of_aeadSeal (S : OpenSSLEvp) (key iv aad pt c t : List Nat) (mem : Buf 32)
    (hiv : iv.length = 12) (haad : aad.length = 4) (hpt : pt.length = 16)
    (hseal : aeadSeal S key iv aad pt = some (c, t)) (hc : c.length = 16) (ht : t.length = 16) :
    gcm_encrypt S pt 16 aad 4 key iv 12 mem 0 16 = (16, ⟨c ++ t, by simp [hc, ht]⟩) := by
  have e1 : List.take 12 iv = iv := List.take_of_length_le (by omega)
  have e2 : List.take 4 aad = aad := List.take_of_length_le (by omega)
  have e3 : List.take 16 pt = pt := List.take_of_length_le (by omega)
  unfold aeadSeal at hseal
  unfold gcm_encrypt
  cases hctx : S.EVP_CIPHER_CTX_new with
  | none => simp [hctx] at hseal
  | some ctx =>
    simp only [hctx, Option.some_bind, hiv] at hseal
    simp only [e1, e2, e3]
    obtain ⟨r1, c1, hx1⟩ : ∃ r c,
      S.EVP_EncryptInit_ex ctx (some .EVP_aes_128_gcm) none none = (r, c) := ⟨_, _, rfl⟩
    simp only [hx1] at hseal ⊢
    obtain ⟨r2, c2, w2, hx2⟩ : ∃ r c w,
      S.EVP_CIPHER_CTX_ctrl c1 .EVP_CTRL_GCM_SET_IVLEN 12 none = (r, c, w) := ⟨_, _, _, rfl⟩
    simp only [hx2] at hseal ⊢
    obtain ⟨r3, c3, hx3⟩ : ∃ r c,
      S.EVP_EncryptInit_ex c2 none (some key) (some iv) = (r, c) := ⟨_, _, rfl⟩
    simp only [hx3] at hseal ⊢
    obtain ⟨r4, c4, w4, hx4⟩ : ∃ r c w,
      S.EVP_EncryptUpdate c3 false aad = (r, c, w) := ⟨_, _, _, rfl⟩
    simp only [hx4] at hseal ⊢
    obtain ⟨r5, c5, w5, hx5⟩ : ∃ r c w,
      S.EVP_EncryptUpdate c4 true pt = (r, c, w) := ⟨_, _, _, rfl⟩
    simp only [hx5] at hseal ⊢
    obtain ⟨r6, c6, w6, hx6⟩ : ∃ r c w,
      S.EVP_EncryptFinal_ex c5 = (r, c, w) := ⟨_, _, _, rfl⟩
    simp only [hx6] at hseal ⊢
    obtain ⟨r7, c7, w7, hx7⟩ : ∃ r c w,
      S.EVP_CIPHER_CTX_ctrl c6 .EVP_CTRL_GCM_GET_TAG 16 none = (r, c, w) := ⟨_, _, _, rfl⟩
    simp only [hx7] at hseal ⊢
    split at hseal
    · rename_i hall
      obtain ⟨h1, h2, h3, h4, h5, h6, h7⟩ := hall
      simp only [Option.some.injEq, Prod.mk.injEq] at hseal
      obtain ⟨hcc, htt⟩ := hseal
      subst h1 h2 h3 h4 h5 h6 h7 hcc htt
      simp only [ne_eq, not_true_eq_false, ite_false]
      refine Prod.ext ?_ (Subtype.ext ?_)
      · simp only []
        rw [List.length_append] at hc
        exact_mod_cast hc
      · simp only [Buf.poke]
        exact poke_seal_layout mem.val _ _ _ mem.property hc ht
    · simp at hseal

theorem gcm_decrypt_spec (S : OpenSSLEvp) (key iv aad ctp tagp : List Nat) (mem : Buf 16)
    (hiv : iv.length = 12) (haad : aad.length = 4) :
    (aeadOpen S key iv aad (ctp.take 16) (tagp.take 16) = .authenticationFailure →
        (gcm_decrypt S ctp 16 aad 4 tagp key iv 12 mem 0).1 = -1)
    ∧ (∀ p, aeadOpen S key iv aad (ctp.take 16) (tagp.take 16) = .plaintext p →
        (gcm_decrypt S ctp 16 aad 4 tagp key iv 12 mem 0).1 = p.length
        ∧ (p.length = 16 → (gcm_decrypt S ctp 16 aad 4 tagp key iv 12 mem 0).2.val = p))
    ∧ ((gcm_decrypt S ctp 16 aad 4 tagp key iv 12 mem 0).1 ≠ 0 →
        (gcm_decrypt S ctp 16 aad 4 tagp key iv 12 mem 0).1 ≠ -1 →
        ∃ p, aeadOpen S key iv aad (ctp.take 16) (tagp.take 16) = .plaintext p) := by
  have e1 : List.take 12 iv = iv := List.take_of_length_le (by omega)
  have e2 : List.take 4 aad = aad := List.take_of_length_le (by omega)
  unfold aeadOpen gcm_decrypt
  cases hctx : S.EVP_CIPHER_CTX_new with
  | none => simp
  | some ctx =>
    simp only [hiv, e1, e2]
    obtain ⟨r1, c1, hx1⟩ : ∃ r c,
      S.EVP_DecryptInit_ex ctx (some .EVP_aes_128_gcm) none none = (r, c) := ⟨_, _, rfl⟩
    simp only [hx1]
    obtain ⟨r2, c2, w2, hx2⟩ : ∃ r c w,
      S.EVP_CIPHER_CTX_ctrl c1 .EVP_CTRL_GCM_SET_IVLEN 12 none = (r, c, w) := ⟨_, _, _, rfl⟩
    simp only [hx2]
    obtain ⟨r3, c3, hx3⟩ : ∃ r c,
      S.EVP_DecryptInit_ex c2 none (some key) (some iv) = (r, c) := ⟨_, _, rfl⟩
    simp only [hx3]
    obtain ⟨r4, c4, w4, hx4⟩ : ∃ r c w,
      S.EVP_DecryptUpdate c3 false aad = (r, c, w) := ⟨_, _, _, rfl⟩
    simp only [hx4]
    obtain ⟨r5, c5, w5, hx5⟩ : ∃ r c w,
      S.EVP_DecryptUpdate c4 true (List.take 16 ctp) = (r, c, w) := ⟨_, _, _, rfl⟩
    simp only [hx5]
    obtain ⟨r6, c6, w6, hx6⟩ : ∃ r c w,
      S.EVP_CIPHER_CTX_ctrl c5 .EVP_CTRL_GCM_SET_TAG 16 (some (List.take 16 tagp))
        = (r, c, w) := ⟨_, _, _, rfl⟩
    simp only [hx6]
    obtain ⟨r7, c7, w7, hx7⟩ : ∃ r c w,
      S.EVP_DecryptFinal_ex c6 = (r, c, w) := ⟨_, _, _, rfl⟩
    simp only [hx7]
    by_cases h1 : r1 = 0
    · simp [h1]
    by_cases h2 : r2 = 0
    · simp [h1, h2]
    by_cases h3 : r3 = 0
    · simp [h1, h2, h3]
    by_cases h4 : r4 = 0
    · simp [h1, h2, h3, h4]
    by_cases h5 : r5 = 0
    · simp [h1, h2, h3, h4, h5]
    by_cases h6 : r6 = 0
    · simp [h1, h2, h3, h4, h5, h6]
    by_cases h7 : r7 > 0
    · simp only [h1, h2, h3, h4, h5, h6, h7, or_self, ite_false, ite_true,
        OpenResult.plaintext.injEq, reduceCtorEq, false_implies, true_and, exists_eq',
        implies_true, and_true]
      intro p hp
      subst hp
      refine ⟨by simp, fun hlen => ?_⟩
      simp only [Buf.poke]
      exact poke_open_layout mem.val _ _ mem.property hlen
    · simp [h1, h2, h3, h4, h5, h6, h7]


/-! ## PRF engine: the claims -/

/-- C1: for every 16-byte seed and every index in 0..255, `apply` of both backends returns,
with no exception pending, the block encryption under `seed` of the block made of 12 zero
bytes followed by the big-endian bytes `index>>24, index>>16, index>>8, index` (each mod 256),
which for such an index is fifteen zero bytes followed by `index`. -/
theorem apply_eq_blockEncrypt (P : AesNi) (A : OpenSSLAes) (fr : Frame) (seed : List Nat)
    (index : Nat) (hs : seed.length = 16) (hi : index ≤ 255) :
    (Java_ch_ethz_dsg_timecrypt_crypto_prf_PRFAesNi_apply P fr seed index).result
        = some (P.blockEncrypt ⟨seed, hs⟩ (indexBlock index)).val
    ∧ (Java_ch_ethz_dsg_timecrypt_crypto_prf_PRFAesOpenSSL_apply A fr seed index).result
        = some (A.blockEncrypt ⟨seed, hs⟩ (indexBlock index)).val
    ∧ (indexBlock index).val = [0, 0, 0, 0, 0, 0, 0, 0, 0, 0, 0, 0,
        index >>> 24 % 256, index >>> 16 % 256, index >>> 8 % 256, index % 256]
    ∧ (indexBlock index).val = [0, 0, 0, 0, 0, 0, 0, 0, 0, 0, 0, 0, 0, 0, 0, index] := by
  have hcast : ¬ ((index : Int) > 255) := by omega
  refine ⟨?_, ?_, ?_, indexBlock_byte index hi⟩
  · rw [PRFAesNi_apply_outcome P fr seed index hs, toUInt32_natCast index (by omega)]
    simp [Outcome.result, hcast]
  · rw [PRFAesOpenSSL_apply_outcome A fr seed index hs, toUInt32_natCast index (by omega)]
    simp [Outcome.result]
  · simp [indexBlock, Nat.shiftRight_eq_div_pow]

/-- Instance of C1 at the all-zero seed and index 1: the block is `00 .. 00 01`. -/
theorem apply_eq_blockEncrypt_witness :
    (1 : Nat) ≤ 255
    ∧ (Java_ch_ethz_dsg_timecrypt_crypto_prf_PRFAesNi_apply
          toyNi frameAA (List.replicate 16 0) (1 : Nat)).result
        = some (toyNi.blockEncrypt ⟨List.replicate 16 0, rfl⟩ (indexBlock 1)).val
    ∧ (indexBlock 1).val = [0, 0, 0, 0, 0, 0, 0, 0, 0, 0, 0, 0, 0, 0, 0, 1] :=
  have h := apply_eq_blockEncrypt toyNi toyAes frameAA (List.replicate 16 0) 1 rfl (by decide)
  ⟨by decide, h.1, h.2.2.2⟩

/-- C2: for every 16-byte seed and every path, `multiapply` of both backends returns the left
fold over the path, starting from the seed, of the step that encrypts under the current key
the block of 12 zero bytes followed by the full 32-bit big-endian encoding of the index; and
for one-byte indices `a, b, c` the result on `[a, b, c]` is that of three chained `apply`s. -/
theorem multiapply_eq_fold (P : AesNi) (A : OpenSSLAes) (fr : Frame) (seed : List Nat)
    (path : List Int) (hs : seed.length = 16) :
    (Java_ch_ethz_dsg_timecrypt_crypto_prf_PRFAesNi_multiapply P fr seed path).result
        = some (path.foldl (fun k i => P.blockEncrypt k (indexBlock (toUInt32 i)))
            ⟨seed, hs⟩).val
    ∧ (Java_ch_ethz_dsg_timecrypt_crypto_prf_PRFAesOpenSSL_multiapply A fr seed path).result
        = some (path.foldl (fun k i => A.blockEncrypt k (indexBlock (toUInt32 i)))
            ⟨seed, hs⟩).val
    ∧ ∀ a b c : Nat, a ≤ 255 → b ≤ 255 → c ≤ 255 →
        ((Java_ch_ethz_dsg_timecrypt_crypto_prf_PRFAesNi_multiapply
              P fr seed [(a : Int), (b : Int), (c : Int)]).result
          = ((Java_ch_ethz_dsg_timecrypt_crypto_prf_PRFAesNi_apply
                P fr seed a).result.bind fun k1 =>
              (Java_ch_ethz_dsg_timecrypt_crypto_prf_PRFAesNi_apply P fr k1 b).result.bind fun k2 =>
                (Java_ch_ethz_dsg_timecrypt_crypto_prf_PRFAesNi_apply P fr k2 c).result))
        ∧ ((Java_ch_ethz_dsg_timecrypt_crypto_prf_PRFAesOpenSSL_multiapply
              A fr seed [(a : Int), (b : Int), (c : Int)]).result
          = ((Java_ch_ethz_dsg_timecrypt_crypto_prf_PRFAesOpenSSL_apply
                A fr seed a).result.bind fun k1 =>
              (Java_ch_ethz_dsg_timecrypt_crypto_prf_PRFAesOpenSSL_apply
                    A fr k1 b).result.bind fun k2 =>
                (Java_ch_ethz_dsg_timecrypt_crypto_prf_PRFAesOpenSSL_apply A fr k2 c).result)) := by
  refine ⟨PRFAesNi_multiapply_result P fr seed path hs,
    PRFAesOpenSSL_multiapply_result A fr seed path hs, ?_⟩
  intro a b c ha hb hc
  have ha2 : ¬ ((a : Int) > 255) := by omega
  have hb2 : ¬ ((b : Int) > 255) := by omega
  have hc2 : ¬ ((c : Int) > 255) := by omega
  constructor
  · rw [PRFAesNi_multiapply_result P fr seed _ hs, PRFAesNi_apply_outcome P fr seed a hs]
    simp only [Outcome.result, ha2, ite_false, if_true, Option.some_bind]
    rw [PRFAesNi_apply_outcome P fr _ b (P.blockEncrypt ⟨seed, hs⟩ _).property]
    simp only [hb2, ite_false, if_true, Option.some_bind]
    rw [PRFAesNi_apply_outcome P fr _ c (P.blockEncrypt _ _).property]
    simp only [hc2, ite_false, if_true]
    rfl
  · rw [PRFAesOpenSSL_multiapply_result A fr seed _ hs, PRFAesOpenSSL_apply_outcome A fr seed a hs]
    simp only [Outcome.result, if_true, Option.some_bind]
    rw [PRFAesOpenSSL_apply_outcome A fr _ b (A.blockEncrypt ⟨seed, hs⟩ _).property]
    simp only [if_true, Option.some_bind]
    rw [PRFAesOpenSSL_apply_outcome A fr _ c (A.blockEncrypt _ _).property]
    simp only [if_true]
    rfl

/-- Instance of C2 at the seed `0, 1, .., 15` and the path `[1, 2, 300]`. -/
theorem multiapply_eq_fold_witness :
    (List.range 16).length = 16
    ∧ (Java_ch_ethz_dsg_timecrypt_crypto_prf_PRFAesNi_multiapply
          toyNi frameAA (List.range 16) [1, 2, 300]).result
        = some [0, 1, 2, 3, 4, 5, 6, 7, 8, 9, 10, 11, 12, 13, 15, 32] :=
  ⟨rfl, (multiapply_eq_fold toyNi toyAes frameAA (List.range 16) [1, 2, 300] rfl).1.trans
    (by decide)⟩

/-- C8: for every 16-byte seed, `multiapply` on the empty path returns the seed unchanged in
both backends, with no exception and no invocation of the block cipher. -/
theorem multiapply_nil (P : AesNi) (A : OpenSSLAes) (fr : Frame) (seed : List Nat)
    (hs : seed.length = 16) :
    Java_ch_ethz_dsg_timecrypt_crypto_prf_PRFAesNi_multiapply P fr seed [] = ⟨⟨[], []⟩, seed⟩
    ∧ Java_ch_ethz_dsg_timecrypt_crypto_prf_PRFAesOpenSSL_multiapply
          A fr seed [] = ⟨⟨[], []⟩, seed⟩ := by
  constructor
  · rw [PRFAesNi_multiapply_fold P fr seed [] hs]; rfl
  · rw [PRFAesOpenSSL_multiapply_fold A fr seed [] hs]; rfl

/-- Instance of C8 at the seed `0, 1, .., 15`. -/
theorem multiapply_nil_witness :
    (List.range 16).length = 16
    ∧ Java_ch_ethz_dsg_timecrypt_crypto_prf_PRFAesNi_multiapply
          toyNi frameAA (List.range 16) [] = ⟨⟨[], []⟩, List.range 16⟩
    ∧ Java_ch_ethz_dsg_timecrypt_crypto_prf_PRFAesOpenSSL_multiapply
          toyAes frameAA (List.range 16) [] = ⟨⟨[], []⟩, List.range 16⟩ :=
  ⟨rfl, multiapply_nil toyNi toyAes frameAA (List.range 16) rfl⟩

/-- C10: for every 16-byte seed and all paths `p`, `q`, in both backends `multiapply` on
`p ++ q` returns what `multiapply` on `q` returns from the key that `multiapply` on `p`
returns; that intermediate key is 16 bytes long and no call raises an exception. -/
theorem multiapply_append (P : AesNi) (A : OpenSSLAes) (fr fr1 fr2 : Frame) (seed : List Nat)
    (p q : List Int) (hs : seed.length = 16) :
    ((Java_ch_ethz_dsg_timecrypt_crypto_prf_PRFAesNi_multiapply P fr seed (p ++ q)).result
        = (Java_ch_ethz_dsg_timecrypt_crypto_prf_PRFAesNi_multiapply
              P fr1 seed p).result.bind fun k =>
            (Java_ch_ethz_dsg_timecrypt_crypto_prf_PRFAesNi_multiapply P fr2 k q).result)
    ∧ ((Java_ch_ethz_dsg_timecrypt_crypto_prf_PRFAesOpenSSL_multiapply A fr seed (p ++ q)).result
        = (Java_ch_ethz_dsg_timecrypt_crypto_prf_PRFAesOpenSSL_multiapply
              A fr1 seed p).result.bind fun k =>
            (Java_ch_ethz_dsg_timecrypt_crypto_prf_PRFAesOpenSSL_multiapply A fr2 k q).result)
    ∧ (∃ k, (Java_ch_ethz_dsg_timecrypt_crypto_prf_PRFAesNi_multiapply
          P fr1 seed p).result = some k ∧ k.length = 16
        ∧ (Java_ch_ethz_dsg_timecrypt_crypto_prf_PRFAesNi_multiapply P fr2 k q).result.isSome)
    ∧ (∃ k, (Java_ch_ethz_dsg_timecrypt_crypto_prf_PRFAesOpenSSL_multiapply
          A fr1 seed p).result = some k ∧ k.length = 16
        ∧ (Java_ch_ethz_dsg_timecrypt_crypto_prf_PRFAesOpenSSL_multiapply
              A fr2 k q).result.isSome) := by
  refine ⟨?_, ?_, ⟨_, PRFAesNi_multiapply_result P fr1 seed p hs, (deriveNi P _ p).property, ?_⟩,
    ⟨_, PRFAesOpenSSL_multiapply_result A fr1 seed p hs, (deriveOpenSSL A _ p).property, ?_⟩⟩
  · rw [PRFAesNi_multiapply_result P fr seed _ hs, PRFAesNi_multiapply_result P fr1 seed p hs,
      Option.some_bind, PRFAesNi_multiapply_result P fr2 _ q (deriveNi P _ p).property]
    simp only [deriveNi, List.foldl_append]
  · rw [PRFAesOpenSSL_multiapply_result A fr seed _ hs,
      PRFAesOpenSSL_multiapply_result A fr1 seed p hs, Option.some_bind,
      PRFAesOpenSSL_multiapply_result A fr2 _ q (deriveOpenSSL A _ p).property]
    simp only [deriveOpenSSL, List.foldl_append]
  · rw [PRFAesNi_multiapply_result P fr2 _ q (deriveNi P _ p).property]; rfl
  · rw [PRFAesOpenSSL_multiapply_result A fr2 _ q (deriveOpenSSL A _ p).property]; rfl

/-- Instance of C10 at the seed `0, 1, .., 15`, `p = [1, 2]` and `q = [300]`. -/
theorem multiapply_append_witness :
    (List.range 16).length = 16
    ∧ (Java_ch_ethz_dsg_timecrypt_crypto_prf_PRFAesNi_multiapply
          toyNi frameAA (List.range 16) ([1, 2] ++ [300])).result
        = (Java_ch_ethz_dsg_timecrypt_crypto_prf_PRFAesNi_multiapply
              toyNi frameAA (List.range 16) [1, 2]).result.bind fun k =>
            (Java_ch_ethz_dsg_timecrypt_crypto_prf_PRFAesNi_multiapply
                  toyNi frameAA k [300]).result :=
  ⟨rfl, (multiapply_append toyNi toyAes frameAA frameAA frameAA (List.range 16)
    [1, 2] [300] rfl).1⟩

/-- C9: for every 16-byte seed, when block encryption is injective for a fixed key, `apply`
returns different keys for different indices in 0..255, and `multiapply` on one-element
paths returns different keys for different 32-bit indices, in both backends. -/
theorem apply_injective (P : AesNi) (A : OpenSSLAes) (fr : Frame) (seed : List Nat)
    (hs : seed.length = 16)
    (hP : ∀ key, Function.Injective (P.blockEncrypt key))
    (hA : ∀ key, Function.Injective (A.blockEncrypt key)) :
    (∀ index1 index2 : Nat, index1 ≤ 255 → index2 ≤ 255 → index1 ≠ index2 →
        (Java_ch_ethz_dsg_timecrypt_crypto_prf_PRFAesNi_apply
              P fr seed index1).result ≠ (Java_ch_ethz_dsg_timecrypt_crypto_prf_PRFAesNi_apply
                    P fr seed index2).result
        ∧ (Java_ch_ethz_dsg_timecrypt_crypto_prf_PRFAesOpenSSL_apply A fr seed index1).result
            ≠ (Java_ch_ethz_dsg_timecrypt_crypto_prf_PRFAesOpenSSL_apply A fr seed index2).result)
    ∧ (∀ i j : Int, IsJint i → IsJint j → i ≠ j →
        (Java_ch_ethz_dsg_timecrypt_crypto_prf_PRFAesNi_multiapply
              P fr seed [i]).result ≠ (Java_ch_ethz_dsg_timecrypt_crypto_prf_PRFAesNi_multiapply
                    P fr seed [j]).result
        ∧ (Java_ch_ethz_dsg_timecrypt_crypto_prf_PRFAesOpenSSL_multiapply A fr seed [i]).result
            ≠ (Java_ch_ethz_dsg_timecrypt_crypto_prf_PRFAesOpenSSL_multiapply
                  A fr seed [j]).result) := by
  constructor
  · intro i j hi hj hne
    have hi2 : ¬ ((i : Int) > 255) := by omega
    have hj2 : ¬ ((j : Int) > 255) := by omega
    have hblk : indexBlock i ≠ indexBlock j := fun h =>
      hne (indexBlock_injOn i j (by omega) (by omega) h)
    constructor
    · rw [PRFAesNi_apply_outcome P fr seed i hs, PRFAesNi_apply_outcome P fr seed j hs,
        toUInt32_natCast i (by omega), toUInt32_natCast j (by omega)]
      simp only [Outcome.result, hi2, hj2, ite_false, if_true, ne_eq, Option.some.injEq]
      exact fun h => hblk (hP _ (Subtype.ext h))
    · rw [PRFAesOpenSSL_apply_outcome A fr seed i hs, PRFAesOpenSSL_apply_outcome A fr seed j hs,
        toUInt32_natCast i (by omega), toUInt32_natCast j (by omega)]
      simp only [Outcome.result, if_true, ne_eq, Option.some.injEq]
      exact fun h => hblk (hA _ (Subtype.ext h))
  · intro i j hi hj hne
    have hblk : indexBlock (toUInt32 i) ≠ indexBlock (toUInt32 j) := fun h =>
      hne (toUInt32_injOn i j hi hj
        (indexBlock_injOn _ _ (toUInt32_lt i) (toUInt32_lt j) h))
    constructor
    · rw [PRFAesNi_multiapply_result P fr seed _ hs, PRFAesNi_multiapply_result P fr seed _ hs]
      simp only [deriveNi, List.foldl_cons, List.foldl_nil, ne_eq, Option.some.injEq]
      exact fun h => hblk (hP _ (Subtype.ext h))
    · rw [PRFAesOpenSSL_multiapply_result A fr seed _ hs,
        PRFAesOpenSSL_multiapply_result A fr seed _ hs]
      simp only [deriveOpenSSL, List.foldl_cons, List.foldl_nil, ne_eq, Option.some.injEq]
      exact fun h => hblk (hA _ (Subtype.ext h))

/-- Instance of C9 with the xor cipher, seed `0, 1, .., 15`, indices 1 and 2. -/
theorem apply_injective_witness :
    (List.range 16).length = 16
    ∧ (∀ key, Function.Injective (toyNi.blockEncrypt key))
    ∧ (Java_ch_ethz_dsg_timecrypt_crypto_prf_PRFAesNi_apply
          toyNi frameAA (List.range 16) (1 : Nat)).result
        ≠ (Java_ch_ethz_dsg_timecrypt_crypto_prf_PRFAesNi_apply
              toyNi frameAA (List.range 16) (2 : Nat)).result :=
  ⟨rfl, fun key => xorBuf_left_injective key,
    ((apply_injective toyNi toyAes frameAA (List.range 16) rfl
      (fun key => xorBuf_left_injective key) (fun key => xorBuf_left_injective key)).1
        1 2 (by decide) (by decide) (by decide)).1⟩

/-- C6 (defect): on the all-zero seed and index 256 the OpenSSL `apply` raises no exception
and returns the encryption of the block `00 .. 00 01 00`, whereas the AES-NI `apply` raises
"k does not fit in one byte" on the same input. -/
theorem openssl_apply_accepts_256 (P : AesNi) (A : OpenSSLAes) (fr : Frame) :
    (Java_ch_ethz_dsg_timecrypt_crypto_prf_PRFAesOpenSSL_apply
          A fr (List.replicate 16 0) 256).env.thrown = []
    ∧ (Java_ch_ethz_dsg_timecrypt_crypto_prf_PRFAesOpenSSL_apply
          A fr (List.replicate 16 0) 256).result
        = some (A.blockEncrypt ⟨List.replicate 16 0, rfl⟩
            ⟨[0, 0, 0, 0, 0, 0, 0, 0, 0, 0, 0, 0, 0, 0, 1, 0], rfl⟩).val
    ∧ (Java_ch_ethz_dsg_timecrypt_crypto_prf_PRFAesNi_apply
          P fr (List.replicate 16 0) 256).env.thrown
        = ["k does not fit in one byte"]
    ∧ (Java_ch_ethz_dsg_timecrypt_crypto_prf_PRFAesNi_apply
          P fr (List.replicate 16 0) 256).result = none := by
  rw [PRFAesOpenSSL_apply_outcome A fr (List.replicate 16 0) 256 rfl,
    PRFAesNi_apply_outcome P fr (List.replicate 16 0) 256 rfl]
  refine ⟨rfl, ?_, ?_, ?_⟩
  · rfl
  · simp
  · simp [Outcome.result]



/-! ## Sealing and opening: the wrappers -/

theorem PRFAesOpenSSL_encryptgcm_outcome (S : OpenSSLEvp) (fr : Frame) (key aad pt iv : List Nat)
    (hk : key.length = 16) (ha : aad.length = 4) (hp : pt.length = 16) (hn : iv.length = 12) :
    Java_ch_ethz_dsg_timecrypt_crypto_prf_PRFAesOpenSSL_encryptgcm S fr key aad pt iv =
      ⟨⟨if (16 : Int) ≠ (gcm_encrypt S pt 16 aad 4 key iv 12 fr.wide 0 16).1
          then ["Error AES encryption"] else [],
        [.gcm_encrypt key iv aad pt]⟩,
       (gcm_encrypt S pt 16 aad 4 key iv 12 fr.wide 0 16).2.val⟩ := by
  unfold Java_ch_ethz_dsg_timecrypt_crypto_prf_PRFAesOpenSSL_encryptgcm
  simp only [AES_KEY_BYTES, GCM_IV, AAD_LOCAL, Nat.reduceMul, Nat.cast_ofNat,
    GetArrayLength, hk, ha, hp, hn, ne_eq, not_true_eq_false, ite_false,
    GetByteArrayRegion_exact _ key 16 hk, GetByteArrayRegion_exact _ pt 16 hp,
    GetByteArrayRegion_exact _ iv 12 hn, GetByteArrayRegion_exact _ aad 4 ha,
    as_byte_array_full, JNIEnv.log, JNIEnv.entry, ThrowNew]
  by_cases h : (16 : Int) = (gcm_encrypt S pt 16 aad 4 key iv 12 fr.wide 0 16).1
  · simp [← h]
  · simp [h]

theorem PRFAesOpenSSL_decryptgcm_outcome (S : OpenSSLEvp) (fr : Frame) (key aad sealed iv : List Nat)
    (hk : key.length = 16) (ha : aad.length = 4) (hs : sealed.length = 32)
    (hn : iv.length = 12) :
    Java_ch_ethz_dsg_timecrypt_crypto_prf_PRFAesOpenSSL_decryptgcm S fr key aad sealed iv =
      ⟨⟨(if (gcm_decrypt S sealed 16 aad 4 (sealed.drop 16) key iv 12 fr.out 0).1 = -1
          then ["Authentication failed"] else [])
        ++ (if (gcm_decrypt S sealed 16 aad 4 (sealed.drop 16) key iv 12 fr.out 0).1 = 0
          then ["Decryption failed"] else []),
        [.gcm_decrypt key iv aad (sealed.take 16) ((sealed.drop 16).take 16)]⟩,
       (gcm_decrypt S sealed 16 aad 4 (sealed.drop 16) key iv 12 fr.out 0).2.val⟩ := by
  unfold Java_ch_ethz_dsg_timecrypt_crypto_prf_PRFAesOpenSSL_decryptgcm
  simp only [AES_KEY_BYTES, GCM_IV, AAD_LOCAL, STS_ERR, Nat.reduceMul,
    GetArrayLength, hk, ha, hs, hn, ne_eq, not_true_eq_false, ite_false,
    GetByteArrayRegion_exact _ key 16 hk, GetByteArrayRegion_exact _ sealed 32 hs,
    GetByteArrayRegion_exact _ iv 12 hn, GetByteArrayRegion_exact _ aad 4 ha,
    as_byte_array_full, JNIEnv.log, JNIEnv.entry, ThrowNew]
  generalize gcm_decrypt S sealed 16 aad 4 (sealed.drop 16) key iv 12 fr.out 0 = r
  obtain ⟨e, out⟩ := r
  by_cases h1 : e = -1
  · subst h1
    simp
  · have h1' : ¬ (-1 = e) := fun h => h1 h.symm
    by_cases h0 : e = 0
    · subst h0
      simp
    · have h0' : ¬ (0 = e) := fun h => h0 h.symm
      simp only [h1, h1', h0, h0', ite_false, List.append_nil, List.nil_append]

/-- C7: for valid sizes, when the AEAD primitive seals to the 16-byte ciphertext `c` and the
16-byte tag `t`, `encryptgcm` returns, with no exception, exactly the 32 bytes `c ++ t`:
bytes 0..15 are the ciphertext and bytes 16..31 the tag. -/
theorem encryptgcm_layout (S : OpenSSLEvp) (fr : Frame) (key aad plaintext nonce c t : List Nat)
    (hk : key.length = 16) (ha : aad.length = 4) (hp : plaintext.length = 16)
    (hn : nonce.length = 12)
    (hseal : aeadSeal S key nonce aad plaintext = some (c, t))
    (hc : c.length = 16) (ht : t.length = 16) :
    (Java_ch_ethz_dsg_timecrypt_crypto_prf_PRFAesOpenSSL_encryptgcm
          S fr key aad plaintext nonce).result = some (c ++ t)
    ∧ (Java_ch_ethz_dsg_timecrypt_crypto_prf_PRFAesOpenSSL_encryptgcm
          S fr key aad plaintext nonce).ret.length = 32
    ∧ (Java_ch_ethz_dsg_timecrypt_crypto_prf_PRFAesOpenSSL_encryptgcm
          S fr key aad plaintext nonce).ret.take 16 = c
    ∧ (Java_ch_ethz_dsg_timecrypt_crypto_prf_PRFAesOpenSSL_encryptgcm
          S fr key aad plaintext nonce).ret.drop 16 = t := by
  rw [PRFAesOpenSSL_encryptgcm_outcome S fr key aad plaintext nonce hk ha hp hn,
    gcm_encrypt_of_aeadSeal S key nonce aad plaintext c t fr.wide hn ha hp hseal hc ht]
  refine ⟨by simp [Outcome.result], by simp [hc, ht], ?_, ?_⟩
  · simp only []
    rw [List.take_left' hc]
  · simp only []
    rw [List.drop_left' hc]

/-- C3: for valid sizes, when the AEAD primitive seals the plaintext to a 16-byte ciphertext
`c` and a 16-byte tag `t` and opens `(c, t)` under the same key, nonce and aad to the
plaintext, `decryptgcm` applied to the array returned by `encryptgcm` returns the plaintext
with no exception; it hands the primitive the same key, nonce and aad and the halves `c`
(bytes 0..15) and `t` (bytes 16..31). -/
theorem gcm_roundtrip (S : OpenSSLEvp) (fr fr2 : Frame) (key aad plaintext nonce c t : List Nat)
    (hk : key.length = 16) (ha : aad.length = 4) (hp : plaintext.length = 16)
    (hn : nonce.length = 12)
    (hseal : aeadSeal S key nonce aad plaintext = some (c, t))
    (hc : c.length = 16) (ht : t.length = 16)
    (hopen : aeadOpen S key nonce aad c t = .plaintext plaintext) :
    (Java_ch_ethz_dsg_timecrypt_crypto_prf_PRFAesOpenSSL_decryptgcm S fr2 key aad
        (Java_ch_ethz_dsg_timecrypt_crypto_prf_PRFAesOpenSSL_encryptgcm
              S fr key aad plaintext nonce).ret nonce).result
      = some plaintext
    ∧ (Java_ch_ethz_dsg_timecrypt_crypto_prf_PRFAesOpenSSL_decryptgcm S fr2 key aad
        (Java_ch_ethz_dsg_timecrypt_crypto_prf_PRFAesOpenSSL_encryptgcm
              S fr key aad plaintext nonce).ret nonce).env.calls
      = [.gcm_decrypt key nonce aad c t] := by
  have hret : (Java_ch_ethz_dsg_timecrypt_crypto_prf_PRFAesOpenSSL_encryptgcm
        S fr key aad plaintext nonce).ret = c ++ t := by
    rw [PRFAesOpenSSL_encryptgcm_outcome S fr key aad plaintext nonce hk ha hp hn,
      gcm_encrypt_of_aeadSeal S key nonce aad plaintext c t fr.wide hn ha hp hseal hc ht]
  have hlen : (c ++ t).length = 32 := by simp [hc, ht]
  have htk : (c ++ t).take 16 = c := List.take_left' hc
  have hdr : (c ++ t).drop 16 = t := List.drop_left' hc
  have htt : t.take 16 = t := List.take_of_length_le (by omega)
  rw [hret, PRFAesOpenSSL_decryptgcm_outcome S fr2 key aad (c ++ t) nonce hk ha hlen hn]
  have hspec := (gcm_decrypt_spec S key nonce aad (c ++ t) ((c ++ t).drop 16) fr2.out hn ha).2.1
  rw [htk, hdr, htt] at hspec
  obtain ⟨h1, h2⟩ := hspec plaintext hopen
  rw [hdr]
  refine ⟨?_, by simp only [htk, htt]⟩
  have hne1 : ¬ ((gcm_decrypt S (c ++ t) 16 aad 4 t key nonce 12 fr2.out 0).1 = -1) := by
    rw [h1, hp]; decide
  have hne0 : ¬ ((gcm_decrypt S (c ++ t) 16 aad 4 t key nonce 12 fr2.out 0).1 = 0) := by
    rw [h1, hp]; decide
  simp only [Outcome.result, hne1, hne0, ite_false, List.append_nil, if_true, h2 hp]

/-- C4: for valid sizes, when the AEAD primitive rejects the tag `sealed[16..31]` for the
ciphertext `sealed[0..15]` under the given key, nonce and aad, `decryptgcm` raises exactly
"Authentication failed" and the caller receives no bytes; and whenever `decryptgcm` does
return bytes to the caller, the primitive verified the tag. -/
theorem decryptgcm_authentication (S : OpenSSLEvp) (fr : Frame) (key aad sealed nonce : List Nat)
    (hk : key.length = 16) (ha : aad.length = 4) (hs : sealed.length = 32)
    (hn : nonce.length = 12) :
    (aeadOpen S key nonce aad (sealed.take 16) (sealed.drop 16) = .authenticationFailure →
        (Java_ch_ethz_dsg_timecrypt_crypto_prf_PRFAesOpenSSL_decryptgcm
              S fr key aad sealed nonce).env.thrown
          = ["Authentication failed"]
        ∧ (Java_ch_ethz_dsg_timecrypt_crypto_prf_PRFAesOpenSSL_decryptgcm
              S fr key aad sealed nonce).result = none)
    ∧ (∀ p, (Java_ch_ethz_dsg_timecrypt_crypto_prf_PRFAesOpenSSL_decryptgcm
          S fr key aad sealed nonce).result = some p →
        ∃ q, aeadOpen S key nonce aad (sealed.take 16) (sealed.drop 16) = .plaintext q
          ∧ (q.length = 16 → p = q)) := by
  have htt : (sealed.drop 16).take 16 = sealed.drop 16 :=
    List.take_of_length_le (by rw [List.length_drop]; omega)
  have hspec := gcm_decrypt_spec S key nonce aad sealed (sealed.drop 16) fr.out hn ha
  rw [htt] at hspec
  obtain ⟨hfail, hplain, hconv⟩ := hspec
  rw [PRFAesOpenSSL_decryptgcm_outcome S fr key aad sealed nonce hk ha hs hn]
  constructor
  · intro hrej
    have h1 := hfail hrej
    have h0 : ¬ ((gcm_decrypt S sealed 16 aad 4 (sealed.drop 16) key nonce 12 fr.out 0).1 = 0) := by
      rw [h1]; decide
    simp [Outcome.result, h1]
  · intro p hres
    by_cases h1 : (gcm_decrypt S sealed 16 aad 4 (sealed.drop 16) key nonce 12 fr.out 0).1 = -1
    · simp [Outcome.result, h1] at hres
    by_cases h0 : (gcm_decrypt S sealed 16 aad 4 (sealed.drop 16) key nonce 12 fr.out 0).1 = 0
    · simp [Outcome.result, h0] at hres
    obtain ⟨q, hq⟩ := hconv h0 h1
    refine ⟨q, hq, fun hlen => ?_⟩
    have h2 := (hplain q hq).2 hlen
    simp only [Outcome.result, h1, h0, ite_false, List.append_nil, if_true,
      Option.some.injEq] at hres
    rw [← hres, h2]



/-- Instance of C7 with the xor AEAD: key `0..15`, aad `1 2 3 4`, plaintext sixteen 7s,
nonce `0..11`. -/
theorem encryptgcm_layout_witness :
    aeadSeal toyEVP (List.range 16) (List.range 12) [1, 2, 3, 4] (List.replicate 16 7)
      = some ([7, 6, 5, 4, 3, 2, 1, 0, 15, 14, 13, 12, 11, 10, 9, 8],
          [7, 6, 5, 4, 3, 2, 1, 0, 15, 14, 13, 12, 6, 5, 4, 3])
    ∧ (Java_ch_ethz_dsg_timecrypt_crypto_prf_PRFAesOpenSSL_encryptgcm
          toyEVP frameAA (List.range 16) [1, 2, 3, 4]
        (List.replicate 16 7) (List.range 12)).result
      = some ([7, 6, 5, 4, 3, 2, 1, 0, 15, 14, 13, 12, 11, 10, 9, 8]
          ++ [7, 6, 5, 4, 3, 2, 1, 0, 15, 14, 13, 12, 6, 5, 4, 3]) :=
  ⟨by decide, (encryptgcm_layout toyEVP frameAA (List.range 16) [1, 2, 3, 4]
    (List.replicate 16 7) (List.range 12) [7, 6, 5, 4, 3, 2, 1, 0, 15, 14, 13, 12, 11, 10, 9, 8]
    [7, 6, 5, 4, 3, 2, 1, 0, 15, 14, 13, 12, 6, 5, 4, 3]
    rfl rfl rfl rfl (by decide) rfl rfl).1⟩

/-- Instance of C3 with the xor AEAD on the same input. -/
theorem gcm_roundtrip_witness :
    aeadOpen toyEVP (List.range 16) (List.range 12) [1, 2, 3, 4]
        [7, 6, 5, 4, 3, 2, 1, 0, 15, 14, 13, 12, 11, 10, 9, 8]
        [7, 6, 5, 4, 3, 2, 1, 0, 15, 14, 13, 12, 6, 5, 4, 3]
      = .plaintext (List.replicate 16 7)
    ∧ (Java_ch_ethz_dsg_timecrypt_crypto_prf_PRFAesOpenSSL_decryptgcm
          toyEVP frameAA (List.range 16) [1, 2, 3, 4]
        (Java_ch_ethz_dsg_timecrypt_crypto_prf_PRFAesOpenSSL_encryptgcm
              toyEVP frameAA (List.range 16) [1, 2, 3, 4]
          (List.replicate 16 7) (List.range 12)).ret (List.range 12)).result
      = some (List.replicate 16 7) :=
  ⟨by decide, (gcm_roundtrip toyEVP frameAA frameAA (List.range 16) [1, 2, 3, 4]
    (List.replicate 16 7) (List.range 12) [7, 6, 5, 4, 3, 2, 1, 0, 15, 14, 13, 12, 11, 10, 9, 8]
    [7, 6, 5, 4, 3, 2, 1, 0, 15, 14, 13, 12, 6, 5, 4, 3]
    rfl rfl rfl rfl (by decide) rfl rfl (by decide)).1⟩

/-- Instance of C4 with the xor AEAD: the sealed block of the previous instance with the last
tag byte changed from 3 to 2 is rejected. -/
theorem decryptgcm_authentication_witness :
    aeadOpen toyEVP (List.range 16) (List.range 12) [1, 2, 3, 4]
        (List.take 16 [7, 6, 5, 4, 3, 2, 1, 0, 15, 14, 13, 12, 11, 10, 9, 8,
          7, 6, 5, 4, 3, 2, 1, 0, 15, 14, 13, 12, 6, 5, 4, 2])
        (List.drop 16 [7, 6, 5, 4, 3, 2, 1, 0, 15, 14, 13, 12, 11, 10, 9, 8,
          7, 6, 5, 4, 3, 2, 1, 0, 15, 14, 13, 12, 6, 5, 4, 2])
      = .authenticationFailure
    ∧ (Java_ch_ethz_dsg_timecrypt_crypto_prf_PRFAesOpenSSL_decryptgcm
          toyEVP frameAA (List.range 16) [1, 2, 3, 4]
        [7, 6, 5, 4, 3, 2, 1, 0, 15, 14, 13, 12, 11, 10, 9, 8,
          7, 6, 5, 4, 3, 2, 1, 0, 15, 14, 13, 12, 6, 5, 4, 2] (List.range 12)).env.thrown
      = ["Authentication failed"]
    ∧ (Java_ch_ethz_dsg_timecrypt_crypto_prf_PRFAesOpenSSL_decryptgcm
          toyEVP frameAA (List.range 16) [1, 2, 3, 4]
        [7, 6, 5, 4, 3, 2, 1, 0, 15, 14, 13, 12, 11, 10, 9, 8,
          7, 6, 5, 4, 3, 2, 1, 0, 15, 14, 13, 12, 6, 5, 4, 2] (List.range 12)).result
      = none :=
  ⟨by decide, (decryptgcm_authentication toyEVP frameAA (List.range 16) [1, 2, 3, 4]
    [7, 6, 5, 4, 3, 2, 1, 0, 15, 14, 13, 12, 11, 10, 9, 8,
      7, 6, 5, 4, 3, 2, 1, 0, 15, 14, 13, 12, 6, 5, 4, 2] (List.range 12)
    rfl rfl rfl rfl).1 (by decide)⟩

/-- C5 (defect): with a 15-byte key the AES-NI `encrypt` raises "Key is not 16 bytes long",
then an `ArrayIndexOutOfBoundsException` from the region copy, and still runs the block cipher,
keyed with the indeterminate content of `seed`; with a 13-byte nonce `encryptgcm` raises
"IV is not 12 bytes long" and still runs `gcm_encrypt` on the first 12 nonce bytes. -/
theorem wrong_length_still_encrypts (P : AesNi) (S : OpenSSLEvp) (fr : Frame) :
    (Java_ch_ethz_dsg_timecrypt_crypto_prf_PRFAesNi_encrypt
          P fr (List.replicate 15 0) (List.replicate 16 0)).env
      = ⟨["Key is not 16 bytes long", "java/lang/ArrayIndexOutOfBoundsException"],
         [.blockEncrypt fr.seed.val (List.replicate 16 0)]⟩
    ∧ (Java_ch_ethz_dsg_timecrypt_crypto_prf_PRFAesOpenSSL_encryptgcm
          S fr (List.replicate 16 0) (List.replicate 4 0)
        (List.replicate 16 0) (List.replicate 13 0)).env.thrown.head?
      = some "IV is not 12 bytes long"
    ∧ (Java_ch_ethz_dsg_timecrypt_crypto_prf_PRFAesOpenSSL_encryptgcm
          S fr (List.replicate 16 0) (List.replicate 4 0)
        (List.replicate 16 0) (List.replicate 13 0)).env.calls
      = [.gcm_encrypt (List.replicate 16 0) (List.replicate 12 0) (List.replicate 4 0)
          (List.replicate 16 0)] := by
  have g : ∀ (env : JNIEnv) (buf : Buf 12),
      GetByteArrayRegion env (List.replicate 13 0) 0 12 buf
        = (env, ⟨List.replicate 12 0, rfl⟩) := fun _ _ => rfl
  have hgcm : (Java_ch_ethz_dsg_timecrypt_crypto_prf_PRFAesOpenSSL_encryptgcm
        S fr (List.replicate 16 0) (List.replicate 4 0)
        (List.replicate 16 0) (List.replicate 13 0)).env
      = ⟨["IV is not 12 bytes long"] ++
          (if (16 : Int) = (gcm_encrypt S (List.replicate 16 0) 16 (List.replicate 4 0) 4
              (List.replicate 16 0) (List.replicate 12 0) 12 fr.wide 0 16).1
            then [] else ["Error AES encryption"]),
         [.gcm_encrypt (List.replicate 16 0) (List.replicate 12 0) (List.replicate 4 0)
          (List.replicate 16 0)]⟩ := by
    unfold Java_ch_ethz_dsg_timecrypt_crypto_prf_PRFAesOpenSSL_encryptgcm
    simp only [AES_KEY_BYTES, GCM_IV, AAD_LOCAL, Nat.reduceMul, Nat.cast_ofNat, g,
      GetByteArrayRegion_exact _ (List.replicate 16 0) 16 rfl,
      GetByteArrayRegion_exact _ (List.replicate 4 0) 4 rfl,
      GetArrayLength, List.length_replicate, JNIEnv.log, JNIEnv.entry, ThrowNew,
      ne_eq, not_true_eq_false, not_false_eq_true, ite_false, ite_true,
      (by decide : ¬ ((13 : Nat) = 12))]
    split_ifs <;> rfl
  refine ⟨rfl, ?_, ?_⟩
  · rw [hgcm]; rfl
  · rw [hgcm]


end TimeCrypt
